import Mathlib

/-
Verification of the NLPhackthon speech-processor repository
(src/NLP-speech-to-text(addfile)/project.py and app.py).

The development shallowly embeds the parts of the program the claims are
about:

  * the conversion-history JSON log (`save_to_history`, the sidebar read
    `reversed(history[-5:])`),
  * the timestamp formatter `datetime.now().strftime("%Y-%m-%d %H:%M:%S")`,
  * the two transcription adapters (`speech_to_text` over the Google
    recognizer in project.py, and over Whisper in app.py),
  * the two interactive panels of `main` (speech-to-text column and
    text-to-speech column), as state-transition functions over the files
    the program touches, and
  * the primitive file operations of the history rewrite, for the
    atomicity claim.

Fallible Python code (json.load raising on an unparsable file, uncaught
engine exceptions) is embedded with `Except`.
-/

/-- One element of the JSON array stored in conversion_history.json.
The program only ever writes objects whose values are strings, so a
record is a list of string key/value pairs (project.py:107-111,
app.py:114-118). A hand-edited file could hold other keys, hence the
list is not fixed to three fields. -/
structure HistoryEntry where
  fields : List (String × String)
deriving DecidableEq

/-- The `new_entry` dictionary literal of save_to_history
(project.py:107-111): exactly the keys timestamp, text, type, in that
order. -/
def mkEntry (ts txt ty : String) : HistoryEntry :=
  ⟨[("timestamp", ts), ("text", txt), ("type", ty)]⟩

/-- State of the persisted conversion_history.json file:
absent (os.path.exists is false), present and parsed by json.load into
a list of entries, or present but unparsable (json.load raises). The
corrupt case keeps the raw file contents so that "contents unchanged"
is expressible. -/
inductive HistoryFile where
  | absent : HistoryFile
  | parsed : List HistoryEntry → HistoryFile
  | corrupt : String → HistoryFile
deriving DecidableEq

/-- Failures that escape the embedded code. `storeCorrupt` is the
json.JSONDecodeError raised by json.load on an unparsable history file;
`engineFailure` is an uncaught engine exception with str(e) attached;
`invalidInput` belongs to the spec's error taxonomy and is never
produced by the code (it exists so that the spec's rejection behaviour
can be stated and compared against the code). -/
inductive ShellError where
  | storeCorrupt : ShellError
  | engineFailure : String → ShellError
  | invalidInput : ShellError
deriving DecidableEq

instance {ε α : Type} [DecidableEq ε] [DecidableEq α] : DecidableEq (Except ε α) :=
  fun a b =>
    match a, b with
    | .ok x, .ok y => if h : x = y then .isTrue (by rw [h]) else .isFalse (by simp [h])
    | .error x, .error y => if h : x = y then .isTrue (by rw [h]) else .isFalse (by simp [h])
    | .ok _, .error _ => .isFalse (by simp)
    | .error _, .ok _ => .isFalse (by simp)

/-- save_to_history (project.py:104-121, app.py:111-128), given the
already-built entry: read the existing log (file absent means empty
list, json.load raises on an unparsable file), append the new entry,
write the whole list back. -/
def save_to_history (entry : HistoryEntry) : HistoryFile → Except ShellError HistoryFile
  | .absent => .ok (.parsed [entry])
  | .parsed h => .ok (.parsed (h ++ [entry]))
  | .corrupt _ => .error .storeCorrupt

/-- The sidebar read of the history log: `reversed(history[-n:])`.
The code instantiates it at n = 5 (project.py:137, app.py:158); the
slice `history[-n:]` is the last min(n, len) elements, modelled with
`drop (length - n)`. An absent file skips the read entirely
(project.py:134), yielding no entries and no error. -/
def recent (n : Nat) : HistoryFile → Except ShellError (List HistoryEntry)
  | .absent => .ok []
  | .parsed h => .ok ((h.drop (h.length - n)).reverse)
  | .corrupt _ => .error .storeCorrupt

/-- The history sidebar render (project.py:134-145, app.py:155-166)
reads the last five entries, most recent first. -/
def renderHistory : HistoryFile → Except ShellError (List HistoryEntry) :=
  recent 5

/-- A wall-clock instant at second granularity, the data
datetime.datetime.now() feeds into strftime. -/
structure Timestamp where
  year : Nat
  month : Nat
  day : Nat
  hour : Nat
  minute : Nat
  second : Nat
deriving DecidableEq

/-- ASCII digit character for a single decimal digit. -/
def digitChar (n : Nat) : Char := Char.ofNat (48 + n)

/-- The k zero-padded decimal digits of n, most significant first:
the rendering strftime uses for each numeric field. Faithful to
strftime for n < 10 ^ k. -/
def natDigits : Nat → Nat → List Char
  | 0, _ => []
  | k + 1, n => digitChar (n / 10 ^ k) :: natDigits k (n % 10 ^ k)

/-- Character sequence of strftime("%Y-%m-%d %H:%M:%S")
(project.py:106, app.py:113), grouped to the right. -/
def strftimeChars (t : Timestamp) : List Char :=
  natDigits 4 t.year ++ (['-'] ++ (natDigits 2 t.month ++ (['-'] ++ (natDigits 2 t.day ++
    ([' '] ++ (natDigits 2 t.hour ++ ([':'] ++ (natDigits 2 t.minute ++ ([':'] ++
      natDigits 2 t.second)))))))))

/-- strftime("%Y-%m-%d %H:%M:%S") on a Timestamp. -/
def strftime (t : Timestamp) : String := String.mk (strftimeChars t)

/-- Field ranges datetime.datetime guarantees (year is four digits for
any realistic clock; strftime's %Y zero-pads to four). -/
def validTimestamp (t : Timestamp) : Prop :=
  t.year < 10000 ∧ 1 ≤ t.month ∧ t.month ≤ 12 ∧ 1 ≤ t.day ∧ t.day ≤ 31 ∧
    t.hour < 24 ∧ t.minute < 60 ∧ t.second < 60

instance : DecidablePred validTimestamp := fun t => by
  unfold validTimestamp
  infer_instance

/-- Chronological (lexicographic, most significant field first) order
on timestamps. -/
def Timestamp.lexLt (a b : Timestamp) : Prop :=
  a.year < b.year ∨ (a.year = b.year ∧ (a.month < b.month ∨ (a.month = b.month ∧
    (a.day < b.day ∨ (a.day = b.day ∧ (a.hour < b.hour ∨ (a.hour = b.hour ∧
      (a.minute < b.minute ∨ (a.minute = b.minute ∧ a.second < b.second)))))))))

instance (a b : Timestamp) : Decidable (Timestamp.lexLt a b) := by
  unfold Timestamp.lexLt
  infer_instance

/-- Outcome of a recognize_google call inside speech_to_text
(project.py:84-94): a recognized text, sr.UnknownValueError,
sr.RequestError, or any other exception carrying str(e). -/
inductive SttOutcome where
  | recognized : String → SttOutcome
  | unknownValue : SttOutcome
  | requestError : SttOutcome
  | otherFailure : String → SttOutcome
deriving DecidableEq

/-- speech_to_text of project.py (lines 84-94): UnknownValueError and
RequestError are caught and mapped to fixed sentinel texts; every other
exception propagates out of the function. -/
def speech_to_text : SttOutcome → Except ShellError String
  | .recognized t => .ok t
  | .unknownValue => .ok "Could not understand audio"
  | .requestError => .ok "Could not request results"
  | .otherFailure cause => .error (.engineFailure cause)

/-- Outcome of a model.transcribe call inside the Whisper variant
(app.py:96-101): a transcription, or a raised exception with str(e). -/
inductive WhisperOutcome where
  | transcribed : String → WhisperOutcome
  | raised : String → WhisperOutcome
deriving DecidableEq

/-- speech_to_text of app.py (lines 96-101): `except Exception as e`
catches every failure and returns an explanatory text embedding str(e);
the function never raises. -/
def speech_to_text_whisper : WhisperOutcome → Except ShellError String
  | .transcribed t => .ok t
  | .raised e => .ok ("Error in transcription: " ++ e)

/-- Files and counters the interactive shell touches in one render
pass of main (project.py:123-178). tempRecordingExists tracks
temp_recording.wav, tempSpeechExists tracks temp_speech.wav;
synthCalls and sttEngineCalls count engine invocations. -/
structure ShellState where
  historyFile : HistoryFile
  tempRecordingExists : Bool
  tempSpeechExists : Bool
  synthCalls : Nat
  sttEngineCalls : Nat
deriving DecidableEq

/-- The Speech to Text column of main (project.py:150-165): the record
button writes temp_recording.wav; if an upload is present or
temp_recording.wav exists, the sample is transcribed and the result
appended to the history. An escaping exception (engine hard failure,
or json.load on a corrupt history) aborts the pass with the disk state
at that point. The second component is the displayed transcription. -/
def sttPanel (uploaded recordPressed : Bool) (outcome : SttOutcome) (now : Timestamp)
    (s : ShellState) : ShellState × Except ShellError (Option String) :=
  let s1 := if recordPressed then { s with tempRecordingExists := true } else s
  if uploaded || s1.tempRecordingExists then
    let s2 := { s1 with sttEngineCalls := s1.sttEngineCalls + 1 }
    match speech_to_text outcome with
    | .error e => (s2, .error e)
    | .ok txt =>
        match save_to_history (mkEntry (strftime now) txt "Speech to Text") s2.historyFile with
        | .error e => (s2, .error e)
        | .ok f => ({ s2 with historyFile := f }, .ok (some txt))
  else (s1, .ok none)

/-- The Text to Speech column of main (project.py:167-178): on the
convert button a falsy (empty) input does nothing; otherwise
text_to_speech writes temp_speech.wav, the audio is played,
save_to_history appends the record, and only then is temp_speech.wav
removed. An exception from save_to_history (corrupt history) escapes
before the os.remove line runs. -/
def ttsPanel (convertPressed : Bool) (inputText : String) (now : Timestamp)
    (s : ShellState) : ShellState × Except ShellError Unit :=
  if convertPressed then
    if inputText = "" then (s, .ok ())
    else
      let s1 := { s with synthCalls := s.synthCalls + 1, tempSpeechExists := true }
      match save_to_history (mkEntry (strftime now) inputText "Text to Speech") s1.historyFile with
      | .error e => (s1, .error e)
      | .ok f => ({ s1 with historyFile := f, tempSpeechExists := false }, .ok ())
  else (s, .ok ())

/-- Path of the history log (project.py:105). -/
def historyPath : String := "conversion_history.json"

/-- Primitive file-system writes, for the write phase of
save_to_history. truncate is the truncation opening a file with
mode "w" performs; writeAll is the json.dump stream write; rename is
the atomic-replace primitive the code never uses. -/
inductive FileOp where
  | truncate : String → FileOp
  | writeAll : String → String → FileOp
  | rename : String → String → FileOp
deriving DecidableEq

/-- Contents of the file system: path to file contents. -/
def Disk := String → Option String

/-- Effect of one file operation on the disk. -/
def applyOp (d : Disk) : FileOp → Disk
  | .truncate p => fun q => if q = p then some "" else d q
  | .writeAll p data => fun q => if q = p then some ((d p).getD "" ++ data) else d q
  | .rename src dst =>
      fun q => if q = dst then d src else if q = src then none else d q

/-- Effect of a sequence of file operations, first to last. -/
def applyOps (d : Disk) : List FileOp → Disk
  | [] => d
  | op :: ops => applyOps (applyOp d op) ops

/-- The write phase of save_to_history
(project.py:120-121, app.py:127-128): open(history_file, "w")
truncates the log in place, then json.dump writes the serialized
appended list into it. -/
def save_writeOps (data : String) : List FileOp :=
  [.truncate historyPath, .writeAll historyPath data]

/-- Modelled from the spec: the write protocol the spec prescribes for
an append, "write to temp location, then atomically replace" — the
serialized data goes to a distinct temporary path which is then renamed
onto the target. Stated only to be compared with `save_writeOps`. -/
def specAtomicReplaceWrite (target : String) (ops : List FileOp) : Prop :=
  ∃ tmp data, tmp ≠ target ∧
    ops = [.truncate tmp, .writeAll tmp data, .rename tmp target]

/-- The two save_to_history call sites (project.py:165 with type
"Speech to Text", project.py:177 with type "Text to Speech"), with the
strftime instant and the text of the call. -/
inductive SysAppend where
  | stt : Timestamp → String → SysAppend
  | tts : Timestamp → String → SysAppend
deriving DecidableEq

/-- The entry a call site hands to save_to_history. -/
def SysAppend.entry : SysAppend → HistoryEntry
  | .stt t txt => mkEntry (strftime t) txt "Speech to Text"
  | .tts t txt => mkEntry (strftime t) txt "Text to Speech"

/-- The clock instant of a call site. -/
def SysAppend.time : SysAppend → Timestamp
  | .stt t _ => t
  | .tts t _ => t

/-- Run a sequence of system appends against the history file (a
failing append leaves the file as it was, matching the exception
escaping before the write). -/
def runAppends (ops : List SysAppend) (f : HistoryFile) : HistoryFile :=
  ops.foldl (fun g op =>
    match save_to_history op.entry g with
    | .ok g2 => g2
    | .error _ => g) f

/-- The entries a history file holds (none when absent or unparsable). -/
def HistoryFile.entries : HistoryFile → List HistoryEntry
  | .absent => []
  | .parsed l => l
  | .corrupt _ => []

/-- Schema of a conversion record: exactly the fields timestamp, text,
type, in the order the code writes them; the timestamp is the
second-granularity strftime rendering of some valid instant; the type
tag is one of the two values the call sites pass. -/
def isConversionRecord (e : HistoryEntry) : Prop :=
  ∃ ts txt ty, e = mkEntry ts txt ty ∧
    (∃ t, validTimestamp t ∧ ts = strftime t) ∧
    (ty = "Speech to Text" ∨ ty = "Text to Speech")

/-! Helper lemmas. -/

theorem digitChar_lt_digitChar {m n : Nat} (hmn : m < n) (hn : n ≤ 9) :
    digitChar m < digitChar n := by
  interval_cases n <;> interval_cases m <;> decide

theorem list_lt_append {la lb : List Char} (xs ys : List Char)
    (hlen : la.length = lb.length) (h : la < lb) : la ++ xs < lb ++ ys := by
  induction h with
  | nil => simp at hlen
  | rel h => exact List.Lex.rel h
  | cons _ ih =>
      simp at hlen
      exact List.Lex.cons (ih hlen)

theorem list_lt_append_left (p : List Char) {xs ys : List Char} (h : xs < ys) :
    p ++ xs < p ++ ys := by
  induction p with
  | nil => exact h
  | cons c p ih => exact List.Lex.cons ih

theorem natDigits_length (k n : Nat) : (natDigits k n).length = k := by
  induction k generalizing n with
  | zero => rfl
  | succ k ih => simp [natDigits, ih]

theorem natDigits_lt {k a b : Nat} (hab : a < b) (hb : b < 10 ^ k) :
    natDigits k a < natDigits k b := by
  induction k generalizing a b with
  | zero => omega
  | succ k ih =>
      have h10 : 0 < 10 ^ k := Nat.pos_pow_of_pos k (by omega)
      have hbq : b / 10 ^ k ≤ 9 := by
        have hlt : b / 10 ^ k < 10 :=
          Nat.div_lt_iff_lt_mul h10 |>.mpr (by rw [pow_succ] at hb; omega)
        omega
      rcases Nat.lt_trichotomy (a / 10 ^ k) (b / 10 ^ k) with hq | hq | hq
      · exact List.Lex.rel (digitChar_lt_digitChar hq hbq)
      · have hma := Nat.div_add_mod a (10 ^ k)
        have hmb := Nat.div_add_mod b (10 ^ k)
        rw [hq] at hma
        have hamod : a % 10 ^ k < 10 ^ k := Nat.mod_lt _ h10
        have hbmod : b % 10 ^ k < 10 ^ k := Nat.mod_lt _ h10
        have hrem : a % 10 ^ k < b % 10 ^ k := by omega
        rw [natDigits, natDigits, hq]
        exact List.Lex.cons (ih hrem hbmod)
      · have hle : a / 10 ^ k ≤ b / 10 ^ k := Nat.div_le_div_right (Nat.le_of_lt hab)
        omega

theorem digit_block_lt {a b : Nat} (k : Nat) (hab : a < b) (hb : b < 10 ^ k)
    (xs ys : List Char) : natDigits k a ++ xs < natDigits k b ++ ys :=
  list_lt_append _ _ (by rw [natDigits_length, natDigits_length]) (natDigits_lt hab hb)

theorem digit_block_eq_lt (k n : Nat) {xs ys : List Char} (h : xs < ys) :
    natDigits k n ++ xs < natDigits k n ++ ys := list_lt_append_left _ h

theorem strftime_length (t : Timestamp) : (strftime t).length = 19 := by
  simp [strftime, String.length, strftimeChars, natDigits_length]

theorem strftime_strictMono {a b : Timestamp} (hvb : validTimestamp b)
    (h : Timestamp.lexLt a b) : strftime a < strftime b := by
  obtain ⟨hY, hM1, hM2, hD1, hD2, hH, hMin, hS⟩ := hvb
  rw [String.lt_iff_toList_lt]
  show strftimeChars a < strftimeChars b
  unfold strftimeChars
  rcases h with h | ⟨e1, h⟩
  · exact digit_block_lt 4 h (by omega) _ _
  · rw [e1]
    apply digit_block_eq_lt
    apply list_lt_append_left
    rcases h with h | ⟨e2, h⟩
    · exact digit_block_lt 2 h (by norm_num; omega) _ _
    · rw [e2]
      apply digit_block_eq_lt
      apply list_lt_append_left
      rcases h with h | ⟨e3, h⟩
      · exact digit_block_lt 2 h (by norm_num; omega) _ _
      · rw [e3]
        apply digit_block_eq_lt
        apply list_lt_append_left
        rcases h with h | ⟨e4, h⟩
        · exact digit_block_lt 2 h (by norm_num; omega) _ _
        · rw [e4]
          apply digit_block_eq_lt
          apply list_lt_append_left
          rcases h with h | ⟨e5, h⟩
          · exact digit_block_lt 2 h (by norm_num; omega) _ _
          · rw [e5]
            apply digit_block_eq_lt
            apply list_lt_append_left
            exact natDigits_lt h (by norm_num; omega)

theorem lastSlice_reverse (l : List HistoryEntry) (n : Nat) :
    (l.drop (l.length - n)).reverse = l.reverse.take n := by
  rw [List.reverse_drop, List.take_eq_take]
  simp
  omega

theorem runAppends_parsed (ops : List SysAppend) (l : List HistoryEntry) :
    runAppends ops (.parsed l) = .parsed (l ++ ops.map SysAppend.entry) := by
  induction ops generalizing l with
  | nil => simp [runAppends]
  | cons op ops ih =>
      show runAppends ops (.parsed (l ++ [op.entry])) = _
      rw [ih]
      simp

theorem runAppends_absent (ops : List SysAppend) :
    (runAppends ops .absent).entries = ops.map SysAppend.entry := by
  cases ops with
  | nil => rfl
  | cons op ops =>
      show (runAppends ops (.parsed [op.entry])).entries = _
      rw [runAppends_parsed]
      simp [HistoryFile.entries]

/-! Claim theorems. -/

/-- C1: for every persisted history log of N appended records the
rendered history panel shows exactly min(N, 5) records in
most-recent-first (reverse insertion) order — it is the 5-element
prefix of the reversed log — and a never-written (absent) store yields
an empty sequence without error. -/
theorem c1_render_min_five_most_recent_first :
    (∀ l : List HistoryEntry,
        renderHistory (.parsed l) = .ok (l.reverse.take 5) ∧
        (l.reverse.take 5).length = min l.length 5) ∧
    renderHistory .absent = .ok [] := by
  refine ⟨fun l => ⟨?_, ?_⟩, rfl⟩
  · show Except.ok ((l.drop (l.length - 5)).reverse) = _
    rw [lastSlice_reverse]
  · simp [Nat.min_comm]

/-- C3: appending a record to a log with contents L persists exactly
L with the record added at the end (no prior record mutated, lost or
reordered; an absent file acts as the empty log), and after appending
record a then record b, reading the last two entries gives [b, a]. -/
theorem c3_append_preserves_round_trip :
    (∀ (l : List HistoryEntry) (r : HistoryEntry),
        save_to_history r (.parsed l) = .ok (.parsed (l ++ [r]))) ∧
    (∀ r : HistoryEntry, save_to_history r .absent = .ok (.parsed [r])) ∧
    (∀ (l : List HistoryEntry) (a b : HistoryEntry),
        ((save_to_history a (.parsed l) >>= save_to_history b) >>= recent 2) =
          .ok [b, a]) := by
  refine ⟨fun l r => rfl, fun r => rfl, fun l a b => ?_⟩
  show recent 2 (.parsed (l ++ [a] ++ [b])) = .ok [b, a]
  have hl : l ++ [a] ++ [b] = l ++ [a, b] := by simp
  have hn : (l ++ [a, b]).length - 2 = l.length := by simp
  show Except.ok (((l ++ [a] ++ [b]).drop ((l ++ [a] ++ [b]).length - 2)).reverse) = _
  rw [hl, hn, List.drop_left]
  rfl

/-- C6: a history file that exists but is unparsable makes every read
of it (the read inside an append, or the recent/render read) signal
the StoreCorrupt error; the triggering action is abandoned and the
file's contents are left unchanged. -/
theorem c6_corrupt_store_read_fails_state_untouched :
    (∀ (raw : String) (e : HistoryEntry),
        save_to_history e (.corrupt raw) = .error .storeCorrupt) ∧
    (∀ (raw : String) (n : Nat), recent n (.corrupt raw) = .error .storeCorrupt) ∧
    (∀ (raw txt : String) (tr tsp : Bool) (sc ec : Nat) (now : Timestamp),
        sttPanel true false (.recognized txt) now ⟨.corrupt raw, tr, tsp, sc, ec⟩ =
          (⟨.corrupt raw, tr, tsp, sc, ec + 1⟩, .error .storeCorrupt)) ∧
    (∀ (raw : String) (c : Char) (cs : List Char) (tr tsp : Bool) (sc ec : Nat)
        (now : Timestamp),
        ttsPanel true (String.mk (c :: cs)) now ⟨.corrupt raw, tr, tsp, sc, ec⟩ =
          (⟨.corrupt raw, tr, true, sc + 1, ec⟩, .error .storeCorrupt)) := by
  refine ⟨fun raw e => rfl, fun raw n => rfl, fun raw txt tr tsp sc ec now => rfl,
    fun raw c cs tr tsp sc ec now => ?_⟩
  have hne : String.mk (c :: cs) ≠ "" := by
    intro h
    simpa using congrArg String.data h
  simp only [ttsPanel, if_pos]
  rw [if_neg hne]
  rfl

/-- C2 counterexample: an uploaded sample the engine cannot interpret
(sr.UnknownValueError) makes the shell display the sentinel text, yet
a history record IS appended for that failed transcription
(project.py:163-165 calls save_to_history unconditionally on the
returned text), contradicting "no history record is appended". -/
theorem c2_failed_transcription_appends_counterexample :
    (sttPanel true false SttOutcome.unknownValue ⟨2025, 10, 12, 9, 30, 5⟩
        ⟨HistoryFile.parsed [], false, false, 0, 0⟩).2 =
      Except.ok (some "Could not understand audio") ∧
    (sttPanel true false SttOutcome.unknownValue ⟨2025, 10, 12, 9, 30, 5⟩
        ⟨HistoryFile.parsed [], false, false, 0, 0⟩).1.historyFile ≠
      HistoryFile.parsed [] := by
  constructor <;> decide

/-- C2 amended: a transcription call on a sample the engine cannot
interpret returns the InaudibleOrUnrecognized sentinel text
("Could not understand audio") rather than raising, and a history
record carrying that sentinel text is appended for the failed
transcription. -/
theorem c2_sentinel_returned_and_appended :
    ∀ (l : List HistoryEntry) (tr tsp : Bool) (sc ec : Nat) (now : Timestamp),
      sttPanel true false SttOutcome.unknownValue now ⟨.parsed l, tr, tsp, sc, ec⟩ =
        (⟨.parsed (l ++ [mkEntry (strftime now) "Could not understand audio"
            "Speech to Text"]), tr, tsp, sc, ec + 1⟩,
          .ok (some "Could not understand audio")) :=
  fun l tr tsp sc ec now => rfl

/-- C5 counterexample: a synthesis request with empty input text is a
silent no-op (the state is unchanged and the pass succeeds), not a
surfaced InvalidInput rejection: no InvalidInput error is produced
anywhere (project.py:172 merely skips the body when the text is falsy). -/
theorem c5_empty_input_silent_counterexample :
    ttsPanel true "" ⟨2025, 10, 12, 9, 30, 5⟩
        ⟨HistoryFile.parsed [], false, false, 0, 0⟩ =
      (⟨HistoryFile.parsed [], false, false, 0, 0⟩, Except.ok ()) ∧
    (ttsPanel true "" ⟨2025, 10, 12, 9, 30, 5⟩
        ⟨HistoryFile.parsed [], false, false, 0, 0⟩).2 ≠
      Except.error ShellError.invalidInput := by
  constructor <;> decide

/-- C5 amended: a synthesis request with empty input text is silently
ignored before the synthesis engine is invoked — the engine is never
called, no temporary artifact is produced and no history record is
appended (the whole state is unchanged) — but no InvalidInput error is
surfaced to the caller. -/
theorem c5_empty_input_is_noop :
    ∀ (cp : Bool) (now : Timestamp) (s : ShellState),
      ttsPanel cp "" now s = (s, .ok ()) := by
  intro cp now s
  cases cp <;> simp [ttsPanel]

/-- C7 counterexample: in the Whisper variant (app.py:96-101) an
engine failure that is neither InaudibleOrUnrecognized nor
ServiceUnavailable is NOT surfaced as a hard error: the adapter
returns explanatory text, contradicting "every other engine failure is
surfaced as a hard error". -/
theorem c7_whisper_failure_not_hard_error_counterexample :
    speech_to_text_whisper (.raised "boom") =
      Except.ok "Error in transcription: boom" ∧
    speech_to_text_whisper (.raised "boom") ≠
      Except.error (ShellError.engineFailure "boom") := by
  constructor <;> decide

/-- C7 amended: the remote-engine adapter (project.py) maps
InaudibleOrUnrecognized and ServiceUnavailable to explanatory sentinel
texts returned in place of a result and surfaces every other engine
failure as a hard error with the underlying cause attached; the
local-engine adapter (app.py) returns an explanatory text embedding
the cause for EVERY engine failure and never surfaces a hard error. -/
theorem c7_adapter_failure_taxonomy :
    speech_to_text .unknownValue = .ok "Could not understand audio" ∧
    speech_to_text .requestError = .ok "Could not request results" ∧
    (∀ t, speech_to_text (.recognized t) = .ok t) ∧
    (∀ cause, speech_to_text (.otherFailure cause) =
      .error (.engineFailure cause)) ∧
    (∀ e, speech_to_text_whisper (.raised e) =
      .ok ("Error in transcription: " ++ e)) ∧
    (∀ e c, speech_to_text_whisper (.raised e) ≠ .error c) := by
  refine ⟨rfl, rfl, fun t => rfl, fun cause => rfl, fun e => rfl, fun e c => ?_⟩
  simp [speech_to_text_whisper]

/-- C4 counterexample: with a corrupted history file, the synthesis
action synthesizes into temp_speech.wav, then save_to_history raises,
and os.remove (project.py:178) is never reached: the call exits with
the temporary synthesis artifact still on disk, contradicting "on
every exit path the artifact no longer exists". -/
theorem c4_artifact_survives_failure_counterexample :
    (ttsPanel true "test" ⟨2025, 10, 12, 9, 30, 5⟩
        ⟨HistoryFile.corrupt "garbage", false, false, 0, 0⟩).1.tempSpeechExists = true ∧
    (ttsPanel true "test" ⟨2025, 10, 12, 9, 30, 5⟩
        ⟨HistoryFile.corrupt "garbage", false, false, 0, 0⟩).2 =
      Except.error ShellError.storeCorrupt := by
  constructor <;> decide

/-- C4 amended: on the success path (readable or absent history) the
temporary synthesis artifact is removed before the call returns, but
when a subsequent step fails (history append on a corrupted store) the
call exits with the artifact still on disk. -/
theorem c4_artifact_removed_only_on_success :
    ∀ (txt : String) (now : Timestamp) (tr tsp : Bool) (sc ec : Nat),
      txt ≠ "" →
      (∀ l, ttsPanel true txt now ⟨.parsed l, tr, tsp, sc, ec⟩ =
        (⟨.parsed (l ++ [mkEntry (strftime now) txt "Text to Speech"]),
          tr, false, sc + 1, ec⟩, .ok ())) ∧
      ttsPanel true txt now ⟨.absent, tr, tsp, sc, ec⟩ =
        (⟨.parsed [mkEntry (strftime now) txt "Text to Speech"],
          tr, false, sc + 1, ec⟩, .ok ()) ∧
      (∀ raw, ttsPanel true txt now ⟨.corrupt raw, tr, tsp, sc, ec⟩ =
        (⟨.corrupt raw, tr, true, sc + 1, ec⟩, .error .storeCorrupt)) := by
  intro txt now tr tsp sc ec hne
  refine ⟨fun l => ?_, ?_, fun raw => ?_⟩ <;>
    · simp only [ttsPanel, if_pos]
      rw [if_neg hne]
      rfl

theorem c4_artifact_removed_only_on_success_witness :
    ("test" : String) ≠ "" ∧
    ttsPanel true "test" ⟨2025, 10, 12, 9, 30, 5⟩
        ⟨HistoryFile.parsed [], false, false, 0, 0⟩ =
      (⟨HistoryFile.parsed [mkEntry (strftime ⟨2025, 10, 12, 9, 30, 5⟩) "test"
          "Text to Speech"], false, false, 1, 0⟩, .ok ()) ∧
    ttsPanel true "test" ⟨2025, 10, 12, 9, 30, 5⟩
        ⟨HistoryFile.corrupt "garbage", false, false, 0, 0⟩ =
      (⟨HistoryFile.corrupt "garbage", false, true, 1, 0⟩,
        .error ShellError.storeCorrupt) :=
  ⟨by decide,
    (c4_artifact_removed_only_on_success "test" ⟨2025, 10, 12, 9, 30, 5⟩
      false false 0 0 (by decide)).1 [],
    (c4_artifact_removed_only_on_success "test" ⟨2025, 10, 12, 9, 30, 5⟩
      false false 0 0 (by decide)).2.2 "garbage"⟩

/-- C8 counterexample: the write phase of an append is not the
write-to-temp-then-rename protocol — it is a truncate of the target
followed by a write into it — and a reader between the two operations
observes an empty file that is neither the prior contents "[old]" nor
the final contents "[new]": a partially written history file. -/
theorem c8_inplace_rewrite_counterexample :
    ¬ specAtomicReplaceWrite historyPath (save_writeOps "[new]") ∧
    applyOps (fun q => if q = historyPath then some "[old]" else none)
        (List.take 1 (save_writeOps "[new]")) historyPath = some "" ∧
    some "" ≠ ((fun q => if q = historyPath then some "[old]" else none) historyPath) ∧
    some "" ≠ applyOps (fun q => if q = historyPath then some "[old]" else none)
        (save_writeOps "[new]") historyPath := by
  refine ⟨?_, by decide, by decide, by decide⟩
  rintro ⟨tmp, data, hne, heq⟩
  simp [save_writeOps] at heq

/-- C8 amended: every append rewrites the log in place — it truncates
conversion_history.json by opening it for writing and then writes the
new serialized array into the same path; no temporary file and no
rename are involved, the final contents are the new data, and a reader
observing between the truncate and the write sees an empty file. -/
theorem c8_append_truncates_in_place :
    ∀ (d : Disk) (data : String),
      save_writeOps data = [.truncate historyPath, .writeAll historyPath data] ∧
      applyOps d (save_writeOps data) historyPath = some data ∧
      applyOps d (List.take 1 (save_writeOps data)) historyPath = some "" := by
  intro d data
  refine ⟨rfl, ?_, by simp [save_writeOps, applyOps, applyOp]⟩
  show applyOp (applyOp d (.truncate historyPath)) (.writeAll historyPath data)
      historyPath = some data
  simp [applyOp]

/-- C9: every record the system appends is an object with exactly the
fields timestamp, text, type, the type tag being one of the two call
site values, and this schema holds for every element of the persisted
file after every sequence of system appends starting from a
never-written store; the timestamp string is a fixed-width (19
character) second-granularity rendering, and it sorts
chronologically (the formatter is strictly monotone in the instant). -/
theorem c9_record_schema_invariant :
    (∀ ops : List SysAppend, (∀ op ∈ ops, validTimestamp op.time) →
        ∀ e ∈ (runAppends ops .absent).entries, isConversionRecord e) ∧
    (∀ t : Timestamp, validTimestamp t → (strftime t).length = 19) ∧
    (∀ a b : Timestamp, validTimestamp a → validTimestamp b →
        Timestamp.lexLt a b → strftime a < strftime b) := by
  refine ⟨?_, fun t _ => strftime_length t, fun a b _ hvb h => strftime_strictMono hvb h⟩
  intro ops hval e he
  rw [runAppends_absent] at he
  obtain ⟨op, hop, rfl⟩ := List.mem_map.mp he
  cases op with
  | stt t txt =>
      exact ⟨strftime t, txt, "Speech to Text", rfl,
        ⟨t, hval _ hop, rfl⟩, Or.inl rfl⟩
  | tts t txt =>
      exact ⟨strftime t, txt, "Text to Speech", rfl,
        ⟨t, hval _ hop, rfl⟩, Or.inr rfl⟩

theorem c9_record_schema_invariant_witness :
    ((∀ op ∈ [SysAppend.stt ⟨2025, 10, 12, 9, 30, 5⟩ "hello world",
        SysAppend.tts ⟨2025, 10, 12, 9, 31, 0⟩ "test"], validTimestamp op.time) ∧
      ∀ e ∈ (runAppends [SysAppend.stt ⟨2025, 10, 12, 9, 30, 5⟩ "hello world",
        SysAppend.tts ⟨2025, 10, 12, 9, 31, 0⟩ "test"] .absent).entries,
        isConversionRecord e) ∧
    (validTimestamp ⟨2025, 10, 12, 9, 30, 5⟩ ∧
      (strftime ⟨2025, 10, 12, 9, 30, 5⟩).length = 19) ∧
    (validTimestamp ⟨2025, 10, 12, 9, 30, 5⟩ ∧
      validTimestamp ⟨2025, 10, 12, 9, 31, 0⟩ ∧
      Timestamp.lexLt ⟨2025, 10, 12, 9, 30, 5⟩ ⟨2025, 10, 12, 9, 31, 0⟩ ∧
      strftime ⟨2025, 10, 12, 9, 30, 5⟩ < strftime ⟨2025, 10, 12, 9, 31, 0⟩) :=
  ⟨⟨by decide, c9_record_schema_invariant.1 _ (by decide)⟩,
    ⟨by decide, c9_record_schema_invariant.2.1 _ (by decide)⟩,
    ⟨by decide, by decide, by decide,
      c9_record_schema_invariant.2.2 _ _ (by decide) (by decide) (by decide)⟩⟩

/-- C10: the temporary recording file is never deleted by the shell —
the speech-to-text pass can only leave it in place or (on the record
button) create it, and the text-to-speech pass never touches it — so
on every render with no upload present but temp_recording.wav on disk
and a readable history, the shell invokes the transcription engine
again and appends another history record, leaving the recording file
still on disk for the next render. -/
theorem c10_recording_retranscribed_every_render :
    (∀ (u rp : Bool) (o : SttOutcome) (now : Timestamp) (s : ShellState),
        (sttPanel u rp o now s).1.tempRecordingExists =
          (s.tempRecordingExists || rp)) ∧
    (∀ (cp : Bool) (txt : String) (now : Timestamp) (s : ShellState),
        (ttsPanel cp txt now s).1.tempRecordingExists = s.tempRecordingExists) ∧
    (∀ (l : List HistoryEntry) (tsp : Bool) (sc ec : Nat) (now : Timestamp)
        (txt : String),
        sttPanel false false (.recognized txt) now ⟨.parsed l, true, tsp, sc, ec⟩ =
          (⟨.parsed (l ++ [mkEntry (strftime now) txt "Speech to Text"]),
            true, tsp, sc, ec + 1⟩, .ok (some txt))) := by
  refine ⟨?_, ?_, fun l tsp sc ec now txt => rfl⟩
  · intro u rp o now s
    obtain ⟨f, tr, tsp, sc, ec⟩ := s
    cases rp <;> cases u <;> cases tr <;> cases o <;> cases f <;>
      simp [sttPanel, speech_to_text, save_to_history]
  · intro cp txt now s
    obtain ⟨f, tr, tsp, sc, ec⟩ := s
    by_cases he : txt = ""
    · subst he
      cases cp <;> simp [ttsPanel]
    · cases cp <;> cases f <;>
        simp [ttsPanel, save_to_history, if_neg he]
